import Mathlib

/-!
A shallow embedding of the `Lightcurve` data model of
`bayesflare/data/data.py` (the only source file), together with theorems
settling the frozen claims about it.

Modelling conventions:
* Flux and flux-error samples are `Option ℚ`: `none` stands for a NaN
  (missing) sample, `some q` for the finite value `q`.  Rationals replace
  floats; float rounding (e.g. the `astype('float32')` cast in
  `interpolate`) is not modelled, the claims are about the mathematical
  values.
* Timestamps (`cts`) are plain `ℚ` (the claims never involve NaN
  timestamps).
* NumPy's median: `np.median` of an empty array, or of an array holding a
  NaN, is NaN (`none`); otherwise it is the middle element of the sorted
  data (average of the two middle elements for even length).
* Python methods that mutate `self` and may raise become functions
  `Lightcurve → … → Except (String × Lightcurve) Lightcurve`: the error
  payload carries the state as it is at the moment the exception is
  raised, so partial mutation before a raise is observable.
-/

/-- Elementwise NaN-aware subtraction: any operation touching a NaN yields
NaN, mirroring IEEE float arithmetic on `Option ℚ`. -/
def osub (a b : Option ℚ) : Option ℚ :=
  match a, b with
  | some x, some y => some (x - y)
  | _, _ => none

/-- Insert `x` into an already ascending list, keeping it ascending. -/
def insertSorted (x : ℚ) : List ℚ → List ℚ
  | [] => [x]
  | y :: ys => if x ≤ y then x :: y :: ys else y :: insertSorted x ys

/-- Insertion sort on rationals (stands in for NumPy's sort inside
`np.median`). -/
def sortQ : List ℚ → List ℚ
  | [] => []
  | x :: xs => insertSorted x (sortQ xs)

/-- Median of an already sorted list: middle element for odd length,
average of the two middle elements for even length, `none` (NaN) for the
empty list. -/
def sortedMedian (l : List ℚ) : Option ℚ :=
  if l.length = 0 then none
  else if l.length % 2 = 1 then l.get? (l.length / 2)
  else
    match l.get? (l.length / 2 - 1), l.get? (l.length / 2) with
    | some a, some b => some ((a + b) / 2)
    | _, _ => none

/-- `np.median` on a NaN-able array: NaN if the array is empty or holds a
NaN, else the median of the values. -/
def npMedian (xs : List (Option ℚ)) : Option ℚ :=
  if xs.any (fun x => x.isNone) then none
  else sortedMedian (sortQ (xs.filterMap (fun x => x)))

/-- Indices of the `true` entries of a boolean list, i.e. NumPy's
`z.nonzero()[0]`; `n` is the index of the list's head. -/
def nonzeroIdx (n : ℕ) : List Bool → List ℕ
  | [] => []
  | b :: rest => if b then n :: nonzeroIdx (n + 1) rest else nonzeroIdx (n + 1) rest

/-- `np.diff`: consecutive differences of a list of indices, as integers. -/
def diffs (l : List ℕ) : List ℤ :=
  (l.zip l.tail).map (fun p => (p.2 : ℤ) - (p.1 : ℤ))

/-- The Kepler segment a single FITS file contributes: data columns plus
the header fields `add_data` reads.  `flux` is `PDCSAP_FLUX`, `time` the
`TIME` column in days, `flux_err` is `PDCSAP_FLUX_ERR`. -/
structure Segment where
  keplerid : ℕ
  obsmode : String
  quarter : ℕ
  flux : List (Option ℚ)
  time : List ℚ
  flux_err : List (Option ℚ)
deriving Repr, DecidableEq

/-- The `Lightcurve` object's fields, with the class-level defaults of
`data.py` as the initial values (`dc = 0`, empty arrays, empty quarter,
flags off). -/
structure Lightcurve where
  id : ℕ := 0
  clc : List (Option ℚ) := []
  cts : List ℚ := []
  cle : List (Option ℚ) := []
  ulc : List (Option ℚ) := []
  dc : Option ℚ := some 0
  quarter : String := ""
  cadence : String := ""
  detrended : Bool := false
  detrend_nbins : ℕ := 0
  detrend_order : ℕ := 0
  detrend_fit : List (Option ℚ) := []
  running_median_dt : ℚ := 0
  running_median_fit : List (Option ℚ) := []
  datagap : Bool := false
deriving Repr, DecidableEq

namespace Lightcurve

/-- `Lightcurve.gap_checker`, embedded statement by statement:
`z = np.invert(np.isnan(d))`; `y = np.diff(z.nonzero()[0])`;
`if len(y < maxgap+1) != len(y): return True else: return False`.
`y < maxgap+1` is NumPy elementwise comparison, hence a boolean array of
the same length as `y`, embedded as `y.map (fun g => decide (g < maxgap+1))`. -/
def gap_checker (d : List (Option ℚ)) (maxgap : ℕ) : Bool :=
  let z := d.map (fun x => x.isSome)
  let y := diffs (nonzeroIdx 0 z)
  if (y.map (fun g => decide (g < (maxgap : ℤ) + 1))).length ≠ y.length then true
  else false

end Lightcurve

/-- The valid (non-NaN) samples of a flux array, as
(index, value) pairs with the index cast to `ℚ`; `n` is the index of the
head of the list.  `vpAux 0 xs` is the pairing of `x(~nans)` (the valid
indices) with `z[~nans]` (the valid values) that `np.interp` receives in
`Lightcurve.interpolate`. -/
def vpAux (n : ℕ) : List (Option ℚ) → List (ℚ × ℚ)
  | [] => []
  | none :: rest => vpAux (n + 1) rest
  | some q :: rest => ((n : ℚ), q) :: vpAux (n + 1) rest

/-- `np.interp` evaluated at one abscissa `x` against the sample points
`ps` (pairs (xp, fp), xp ascending): constant `fp.head` below the first
sample point, `fp.last` above the last, linear in between.  `0` for the
empty list is unreachable: `np.interp` raises before this case (see
`interpFlux`). -/
def interpSegs (x : ℚ) : List (ℚ × ℚ) → ℚ
  | [] => 0
  | [p] => p.2
  | p :: q :: rest =>
      if x < p.1 then p.2
      else if x ≤ q.1 then p.2 + (q.2 - p.2) * (x - p.1) / (q.1 - p.1)
      else interpSegs x (q :: rest)

/-- The flux-level content of `Lightcurve.interpolate`:
`z[nans] = np.interp(x(nans), x(~nans), z[~nans])`.  Position by position:
a valid sample keeps its value, a NaN sample at index `i` receives
`np.interp i validPoints`.  `np.interp` raises `ValueError` when its
array of sample points `x(~nans)` is empty, i.e. when the flux has no
valid sample at all. -/
def interpFlux (xs : List (Option ℚ)) : Except String (List (Option ℚ)) :=
  if vpAux 0 xs = [] then .error "array of sample points is empty"
  else
    .ok ((List.range xs.length).map (fun i =>
      match xs.get? i with
      | some (some q) => some q
      | _ => some (interpSegs (i : ℚ) (vpAux 0 xs))))

namespace Lightcurve

/-- `Lightcurve.interpolate`: replaces `clc` by its NaN-interpolated
version; propagates the `ValueError` `np.interp` raises when there is no
valid sample, with the state unchanged (nothing is assigned before the
raise). -/
def interpolate (s : Lightcurve) : Except (String × Lightcurve) Lightcurve :=
  match interpFlux s.clc with
  | .error e => .error (e, s)
  | .ok ys => .ok { s with clc := ys }

/-- `Lightcurve.dcoffset`: `self.dc = np.median(self.clc)`;
`self.clc = self.clc - self.dc`. -/
def dcoffset (s : Lightcurve) : Lightcurve :=
  let dc := npMedian s.clc
  { s with dc := dc, clc := s.clc.map (fun x => osub x dc) }

end Lightcurve

/-- Modelled from the spec: `bayesflare.savitzky_golay` is repository code
that is not under `src/` (only its caller `Lightcurve.detrend` is).  Per
§4.5 the window "must be odd and > order; fails otherwise" and per §8
"window=1 or window ≤ order must fail", so the validity check rejects
`window = 1`, an even window, and `window ≤ order`; on valid parameters it
produces a fitted baseline of the same length as the flux.  The polynomial
fit values themselves are outside the spec's description and outside every
claim, so they are modelled as an unspecified baseline (zeros). -/
def savitzky_golay (y : List (Option ℚ)) (window order : ℕ) :
    Except String (List (Option ℚ)) :=
  if window = 1 ∨ window % 2 = 0 ∨ window ≤ order then
    .error "window_size is not valid for the polynomial order"
  else
    .ok (y.map (fun _ => some 0))

namespace Lightcurve

/-- `Lightcurve.detrend`, statement by statement.  The four assignments
`self.detrend_nbins = nbins`, `self.detrend_order = order`,
`self.detrended = True`, `self.ulc = self.clc` all execute BEFORE
`pf.savitzky_golay` is called, so when the filter raises, the error state
carries them already applied; `self.clc` and `self.detrend_fit` are only
assigned after a successful fit. -/
def detrend (s : Lightcurve) (nbins order : ℕ) :
    Except (String × Lightcurve) Lightcurve :=
  let s1 := { s with detrend_nbins := nbins, detrend_order := order,
                     detrended := true, ulc := s.clc }
  match savitzky_golay s1.clc nbins order with
  | .error e => .error (e, s1)
  | .ok ffit =>
      .ok { s1 with clc := s1.clc.zipWith osub ffit, detrend_fit := ffit }

/-- The boolean window selector of `Lightcurve.running_median` at sample
`i`: `v = (self.cts < (self.cts[i]+dt/2.)) & (self.cts > (self.cts[i]-dt/2.))`,
applied to the (timestamp, flux) pairs; `clc[v]` is the `.map Prod.snd`. -/
def windowVals (s : Lightcurve) (dt : ℚ) (i : ℕ) : List (Option ℚ) :=
  let ti := s.cts.getD i 0
  ((s.cts.zip s.clc).filter
    (fun p => decide (p.1 < ti + dt / 2) && decide (ti - dt / 2 < p.1))).map
    (fun p => p.2)

/-- `Lightcurve.running_median`: per-sample median of the time-window
selection, then `self.running_median_fit = ffit`, `self.ulc = self.clc`,
`self.clc = self.clc - ffit`. -/
def running_median (s : Lightcurve) (dt : ℚ) : Lightcurve :=
  let ffit := (List.range s.clc.length).map (fun i => npMedian (windowVals s dt i))
  { s with running_median_dt := dt,
           running_median_fit := ffit,
           ulc := s.clc,
           clc := s.clc.zipWith osub ffit }

/-- `Lightcurve.add_data`, from the point where the FITS file has been
parsed into a `Segment` (the I/O itself is an external collaborator).
Order of effects as in the source: the `KEPLERID` identity check (raising
before any field is assigned), then cadence, quarter, the three array
appends (`TIME` is converted from days to seconds), then
`self.datagap = self.gap_checker(self.clc, maxgap)` on the just-appended
content, `self.interpolate()`, `self.dcoffset()`, and the optional
Savitzky-Golay detrend. -/
def add_data (s : Lightcurve) (seg : Segment) (dtr : Bool)
    (nbins order maxgap : ℕ) : Except (String × Lightcurve) Lightcurve :=
  match (if s.clc.length = 0 then Except.ok { s with id := seg.keplerid }
         else if seg.keplerid ≠ s.id then
           Except.error ("Tried to add data from KIC" ++ toString seg.keplerid
             ++ " to KIC" ++ toString s.id, s)
         else Except.ok s : Except (String × Lightcurve) Lightcurve) with
  | .error e => .error e
  | .ok s1 =>
      let s2 := { s1 with
        cadence := if seg.obsmode = "long cadence" then "long" else "short",
        quarter := s1.quarter ++ toString seg.quarter,
        clc := s1.clc ++ seg.flux,
        cts := s1.cts ++ seg.time.map (fun t => t * 24 * 3600),
        cle := s1.cle ++ seg.flux_err }
      let s3 := { s2 with datagap := gap_checker s2.clc maxgap }
      match s3.interpolate with
      | .error e => .error e
      | .ok s4 =>
          let s5 := s4.dcoffset
          if dtr then s5.detrend nbins order else .ok s5

end Lightcurve

/-- The spec's description of the running-median window, as written:
membership is decided by timestamp distance only, a sample belongs to
sample `i`'s window when its timestamp falls within ±dt/2 of sample `i`'s
timestamp.  Stated with an absolute value, to be compared with the
two-sided comparison `windowVals` the code performs. -/
def specTimeWindow (s : Lightcurve) (dt : ℚ) (i : ℕ) : List (Option ℚ) :=
  ((s.cts.zip s.clc).filter
    (fun p => decide (|p.1 - s.cts.getD i 0| < dt / 2))).map (fun p => p.2)

/-! ### Helper lemmas -/

/-- The guard of `gap_checker` compares the length of the elementwise
boolean array `y < maxgap+1` with the length of `y`; these are always
equal, so the guard never fires. -/
theorem gap_checker_eq_false (d : List (Option ℚ)) (maxgap : ℕ) :
    Lightcurve.gap_checker d maxgap = false := by
  simp [Lightcurve.gap_checker]

/-- A successful `detrend` call is exactly a successful filter call plus
the recorded record updates. -/
theorem detrend_ok_elim {s s' : Lightcurve} {nbins order : ℕ}
    (h : s.detrend nbins order = .ok s') :
    ∃ ffit, savitzky_golay s.clc nbins order = .ok ffit ∧
      s' = { s with detrend_nbins := nbins, detrend_order := order,
                    detrended := true, ulc := s.clc,
                    clc := s.clc.zipWith osub ffit, detrend_fit := ffit } := by
  unfold Lightcurve.detrend at h
  cases hsg : savitzky_golay s.clc nbins order with
  | error e => simp [hsg] at h
  | ok ffit => simp [hsg] at h; exact ⟨ffit, rfl, h.symm⟩

/-- A flux list with only NaN entries contributes no valid sample
points. -/
theorem vpAux_eq_nil_of_all_none (n : ℕ) (l : List (Option ℚ))
    (h : ∀ y ∈ l, y = none) : vpAux n l = [] := by
  induction l generalizing n with
  | nil => rfl
  | cons a rest ih =>
      have ha := h a (List.mem_cons_self a rest)
      subst ha
      exact ih (n + 1) (fun y hy => h y (List.mem_cons_of_mem _ hy))

/-- `vpAux` returns no sample point exactly when every sample is NaN. -/
theorem vpAux_eq_nil_iff (n : ℕ) (xs : List (Option ℚ)) :
    vpAux n xs = [] ↔ ∀ y ∈ xs, y = none := by
  induction xs generalizing n with
  | nil => simp [vpAux]
  | cons a rest ih =>
      cases a with
      | none => simp [vpAux, ih (n + 1)]
      | some q => simp [vpAux]

/-- `vpAux` distributes over list append, shifting the start index. -/
theorem vpAux_append (l1 l2 : List (Option ℚ)) (n : ℕ) :
    vpAux n (l1 ++ l2) = vpAux n l1 ++ vpAux (n + l1.length) l2 := by
  induction l1 generalizing n with
  | nil => simp [vpAux]
  | cons a rest ih =>
      have harith : n + (a :: rest).length = n + 1 + rest.length := by
        simp only [List.length_cons]
        omega
      cases a with
      | none =>
          have e1 : vpAux n ((none :: rest) ++ l2)
              = vpAux (n + 1) (rest ++ l2) := rfl
          have e2 : vpAux n (none :: rest) = vpAux (n + 1) rest := rfl
          rw [e1, ih (n + 1), e2, harith]
      | some q =>
          have e1 : vpAux n ((some q :: rest) ++ l2)
              = ((n : ℚ), q) :: vpAux (n + 1) (rest ++ l2) := rfl
          have e2 : vpAux n (some q :: rest)
              = ((n : ℚ), q) :: vpAux (n + 1) rest := rfl
          rw [e1, ih (n + 1), e2, harith, List.cons_append]

/-- Every sample point produced by `vpAux n l` has an abscissa that is a
natural index in the window `[n, n + l.length)`. -/
theorem mem_vpAux_coord {n : ℕ} {l : List (Option ℚ)} {p : ℚ × ℚ}
    (hp : p ∈ vpAux n l) :
    ∃ m : ℕ, p.1 = (m : ℚ) ∧ n ≤ m ∧ m < n + l.length := by
  induction l generalizing n with
  | nil => simp [vpAux] at hp
  | cons a rest ih =>
      cases a with
      | none =>
          obtain ⟨m, h1, h2, h3⟩ := ih (n := n + 1) hp
          exact ⟨m, h1, by omega, by simp; omega⟩
      | some q =>
          rw [vpAux, List.mem_cons] at hp
          rcases hp with h | h
          · exact ⟨n, by rw [h], le_refl n, by simp⟩
          · obtain ⟨m, h1, h2, h3⟩ := ih (n := n + 1) h
            exact ⟨m, h1, by omega, by simp; omega⟩

/-- One unfolding step of `interpSegs` on a list with at least two sample
points. -/
theorem interpSegs_cons_cons (x : ℚ) (p q : ℚ × ℚ) (rest : List (ℚ × ℚ)) :
    interpSegs x (p :: q :: rest) =
      if x < p.1 then p.2
      else if x ≤ q.1 then p.2 + (q.2 - p.2) * (x - p.1) / (q.1 - p.1)
      else interpSegs x (q :: rest) := rfl

/-- `np.interp` evaluated strictly between two adjacent sample points
`(xj, a)` and `(xk, b)` — all earlier points lying strictly below `x` —
is the linear interpolation between them. -/
theorem interpSegs_adjacent (x : ℚ) (l1 : List (ℚ × ℚ)) (xj a xk b : ℚ)
    (l2 : List (ℚ × ℚ)) (h1 : ∀ p ∈ l1, p.1 < x) (hj : xj < x) (hk : x < xk) :
    interpSegs x (l1 ++ (xj, a) :: (xk, b) :: l2)
      = a + (b - a) * (x - xj) / (xk - xj) := by
  induction l1 with
  | nil =>
      rw [List.nil_append, interpSegs_cons_cons,
        if_neg (not_lt.mpr hj.le), if_pos hk.le]
  | cons p0 l1' ih =>
      have hp0 : p0.1 < x := h1 p0 (List.mem_cons_self p0 l1')
      have htail : ∀ p ∈ l1', p.1 < x :=
        fun p hp => h1 p (List.mem_cons_of_mem p0 hp)
      have hq : ∀ q rest, l1' ++ (xj, a) :: (xk, b) :: l2 = q :: rest →
          q.1 < x := by
        intro q rest hqr
        cases l1' with
        | nil =>
            rw [List.nil_append] at hqr
            injection hqr with hq1 hq2
            rw [← hq1]
            exact hj
        | cons r l1'' =>
            rw [List.cons_append] at hqr
            injection hqr with hq1 hq2
            rw [← hq1]
            exact htail r (List.mem_cons_self r l1'')
      cases hsplit : l1' ++ (xj, a) :: (xk, b) :: l2 with
      | nil => exact absurd hsplit (by simp)
      | cons q rest =>
          rw [List.cons_append, hsplit, interpSegs_cons_cons,
            if_neg (not_lt.mpr hp0.le),
            if_neg (not_le.mpr (hq q rest hsplit)), ← hsplit, ih htail]

/-- The window selector of the code (two strict comparisons against
`ti ± dt/2`) selects exactly the samples whose timestamp distance from
`ti` is below `dt/2`, i.e. the spec's time window. -/
theorem windowVals_eq_specTimeWindow (s : Lightcurve) (dt : ℚ) (i : ℕ) :
    Lightcurve.windowVals s dt i = specTimeWindow s dt i := by
  simp only [Lightcurve.windowVals, specTimeWindow]
  congr 1
  apply List.filter_congr
  intro p hp
  rw [← Bool.decide_and, decide_eq_decide, abs_sub_lt_iff]
  constructor
  · rintro ⟨h1, h2⟩
    exact ⟨by linarith, by linarith⟩
  · rintro ⟨h1, h2⟩
    exact ⟨by linarith, by linarith⟩

/-- What a successful `add_data` run guarantees: the interpolation of the
appended content succeeded, and the gap flag, the offset and (when no
detrend was requested) the flux of the final state are the ones computed
from that appended content. -/
theorem add_data_ok_inv {s : Lightcurve} {seg : Segment} {dtr : Bool}
    {nbins order maxgap : ℕ} {s' : Lightcurve}
    (h : s.add_data seg dtr nbins order maxgap = .ok s') :
    ∃ ic, interpFlux (s.clc ++ seg.flux) = .ok ic ∧
      s'.datagap = Lightcurve.gap_checker (s.clc ++ seg.flux) maxgap ∧
      s'.dc = npMedian ic ∧
      (dtr = false → s'.clc = ic.map (fun x => osub x (npMedian ic))) := by
  unfold Lightcurve.add_data at h
  by_cases h0 : s.clc.length = 0
  case pos =>
    simp only [h0, if_true, Lightcurve.interpolate] at h
    cases hI : interpFlux (s.clc ++ seg.flux) with
    | error e => simp [hI] at h
    | ok ic =>
        refine ⟨ic, rfl, ?_⟩
        simp only [hI] at h
        cases dtr with
        | false =>
            simp only [if_false, Except.ok.injEq, Bool.false_eq_true] at h
            subst h
            simp [Lightcurve.dcoffset, Lightcurve.gap_checker]
        | true =>
            simp only [if_true] at h
            obtain ⟨ffit, -, hs'⟩ := detrend_ok_elim h
            subst hs'
            simp [Lightcurve.dcoffset, Lightcurve.gap_checker]
  case neg =>
    by_cases hid : seg.keplerid ≠ s.id
    case pos => simp [h0, hid] at h
    case neg =>
      simp only [h0, if_false, hid, Lightcurve.interpolate] at h
      cases hI : interpFlux (s.clc ++ seg.flux) with
      | error e => simp [hI] at h
      | ok ic =>
          refine ⟨ic, rfl, ?_⟩
          simp only [hI] at h
          cases dtr with
          | false =>
              simp only [if_false, Except.ok.injEq, Bool.false_eq_true] at h
              subst h
              simp [Lightcurve.dcoffset, Lightcurve.gap_checker]
          | true =>
              simp only [if_true] at h
              obtain ⟨ffit, -, hs'⟩ := detrend_ok_elim h
              subst hs'
              simp [Lightcurve.dcoffset, Lightcurve.gap_checker]

/-! ### Claim theorems -/

/-- C10: `gap_checker` returns `false` for every input array and every
`maxgap`, because the guard compares the length of the elementwise boolean
array `y < maxgap+1` — always equal to `len(y)` — with `len(y)`; hence the
`datagap` flag is `false` after every successful append, whatever gaps the
data contains. -/
theorem gap_checker_always_false_and_datagap_false :
    (∀ (d : List (Option ℚ)) (maxgap : ℕ),
      Lightcurve.gap_checker d maxgap = false) ∧
    (∀ (s : Lightcurve) (seg : Segment) (dtr : Bool)
        (nbins order maxgap : ℕ) (s' : Lightcurve),
      s.add_data seg dtr nbins order maxgap = .ok s' → s'.datagap = false) := by
  refine ⟨gap_checker_eq_false, ?_⟩
  intro s seg dtr nbins order maxgap s' h
  obtain ⟨ic, -, hgap, -, -⟩ := add_data_ok_inv h
  rw [hgap, gap_checker_eq_false]

/-- C10 witness: a concrete successful append (a light curve built from
one segment with a NaN run of length 3) ends with `datagap = false`. -/
theorem gap_checker_always_false_and_datagap_false_witness :
    Lightcurve.add_data {}
        { keplerid := 7, obsmode := "long cadence", quarter := 2,
          flux := [some 1, none, none, none, some 5],
          time := [0, 1, 2, 3, 4],
          flux_err := [some 1, some 1, some 1, some 1, some 1] }
        false 101 3 1 = .ok
      { id := 7, clc := [some (-2), some (-1), some 0, some 1, some 2],
        cts := [0, 86400, 172800, 259200, 345600],
        cle := [some 1, some 1, some 1, some 1, some 1],
        dc := some 3, quarter := "2", cadence := "long" } ∧
    ({ id := 7, clc := [some (-2), some (-1), some 0, some 1, some 2],
        cts := [0, 86400, 172800, 259200, 345600],
        cle := [some 1, some 1, some 1, some 1, some 1],
        dc := some 3, quarter := "2", cadence := "long" } :
      Lightcurve).datagap = false := by
  have h : Lightcurve.add_data {}
      { keplerid := 7, obsmode := "long cadence", quarter := 2,
        flux := [some 1, none, none, none, some 5],
        time := [0, 1, 2, 3, 4],
        flux_err := [some 1, some 1, some 1, some 1, some 1] }
      false 101 3 1 = .ok
      { id := 7, clc := [some (-2), some (-1), some 0, some 1, some 2],
        cts := [0, 86400, 172800, 259200, 345600],
        cle := [some 1, some 1, some 1, some 1, some 1],
        dc := some 3, quarter := "2", cadence := "long" } := by
    have hI : interpFlux [some 1, none, none, none, some 5]
        = .ok [some 1, some 2, some 3, some 4, some 5] := by
      norm_num [interpFlux, vpAux, interpSegs, List.range_succ]
      exact fun hc => absurd hc (List.cons_ne_nil _ _)
    norm_num [Lightcurve.add_data, Lightcurve.gap_checker, diffs, nonzeroIdx,
      Lightcurve.interpolate, hI, Lightcurve.dcoffset, npMedian, sortQ,
      insertSorted, sortedMedian, osub]
    rfl
  exact ⟨h, gap_checker_always_false_and_datagap_false.2 _ _ _ _ _ _ _ h⟩

/-- C1 counterexample: on the flux array `[1, NaN, NaN, NaN, 5]` with
`maxgap = 1` a consecutive-valid-index difference is computed (the list of
differences is `[4]`, nonempty), yet `gap_checker` returns `false`, not
`true` as the claim states. -/
theorem gap_checker_big_gap_still_false :
    diffs (nonzeroIdx 0 (([some 1, none, none, none, some 5] :
        List (Option ℚ)).map (fun x => x.isSome))) = [(4 : ℤ)] ∧
    Lightcurve.gap_checker [some 1, none, none, none, some 5] 1 = false := by
  constructor
  · rfl
  · exact gap_checker_eq_false _ _

/-- C1 amended: for every flux array on which at least one
consecutive-valid-index difference is computed, the detector's comparison
reports NO gap (returns `false`), regardless of the run lengths and of the
configured tolerance `maxgap`. -/
theorem gap_checker_never_reports (d : List (Option ℚ)) (maxgap : ℕ)
    (hdiff : diffs (nonzeroIdx 0 (d.map (fun x => x.isSome))) ≠ []) :
    Lightcurve.gap_checker d maxgap = false :=
  gap_checker_eq_false d maxgap

/-- C1 witness: the amended theorem applied to the concrete array with a
run of three NaNs. -/
theorem gap_checker_never_reports_witness :
    Lightcurve.gap_checker [some 1, none, none, none, some 5] 1 = false :=
  gap_checker_never_reports [some 1, none, none, none, some 5] 1 (by decide)

/-- C3: for every flux array the recorded offset is the (NumPy) median of
the flux and the new flux is the old one minus that offset, elementwise;
on `[1,2,3,4,5]` the offset is `3` and the result `[-2,-1,0,1,2]`. -/
theorem dcoffset_median_and_subtraction :
    (∀ s : Lightcurve,
      s.dcoffset.dc = npMedian s.clc ∧
      s.dcoffset.clc.length = s.clc.length ∧
      ∀ i : ℕ, s.dcoffset.clc[i]? =
        (s.clc[i]?).map (fun x => osub x (npMedian s.clc))) ∧
    (Lightcurve.dcoffset
        { clc := [some 1, some 2, some 3, some 4, some 5] }).dc = some 3 ∧
    (Lightcurve.dcoffset
        { clc := [some 1, some 2, some 3, some 4, some 5] }).clc
      = [some (-2), some (-1), some 0, some 1, some 2] := by
  refine ⟨fun s => ⟨rfl, ?_, fun i => ?_⟩, ?_, ?_⟩
  · simp [Lightcurve.dcoffset]
  · simp [Lightcurve.dcoffset]
  · norm_num [Lightcurve.dcoffset, npMedian, sortQ, insertSorted,
      sortedMedian, osub]
  · norm_num [Lightcurve.dcoffset, npMedian, sortQ, insertSorted,
      sortedMedian, osub]

/-- C5: interpolation of a flux array with zero non-missing samples fails
(`np.interp` raises on an empty sample-point array) with the state left
unchanged — no fabricated values are produced; in particular on
`[NaN, NaN, NaN]`. -/
theorem interpolate_no_valid_sample_fails :
    (∀ s : Lightcurve, (∀ y ∈ s.clc, y = none) →
      s.interpolate = .error ("array of sample points is empty", s)) ∧
    Lightcurve.interpolate { clc := [none, none, none] }
      = .error ("array of sample points is empty",
                { clc := [none, none, none] }) := by
  have hgen : ∀ s : Lightcurve, (∀ y ∈ s.clc, y = none) →
      s.interpolate = .error ("array of sample points is empty", s) := by
    intro s hall
    have hvp : vpAux 0 s.clc = [] := vpAux_eq_nil_of_all_none 0 s.clc hall
    simp [Lightcurve.interpolate, interpFlux, hvp]
  exact ⟨hgen, hgen _ (by decide)⟩

/-- C5 witness: the general statement applied to a light curve whose flux
is `[NaN, NaN]`. -/
theorem interpolate_no_valid_sample_fails_witness :
    Lightcurve.interpolate { clc := [none, none] }
      = .error ("array of sample points is empty", { clc := [none, none] }) :=
  interpolate_no_valid_sample_fails.1 { clc := [none, none] } (by decide)

/-- C2: appending a segment whose `KEPLERID` differs from the
already-established id (the buffer is nonempty) raises, and the error
state is the original state unchanged — flux, timestamp and flux-error
buffers, quarter label and cadence class are all exactly as before the
call. -/
theorem add_data_id_mismatch_rejected (s : Lightcurve) (seg : Segment)
    (dtr : Bool) (nbins order maxgap : ℕ)
    (hne : s.clc ≠ []) (hid : seg.keplerid ≠ s.id) :
    s.add_data seg dtr nbins order maxgap =
      .error ("Tried to add data from KIC" ++ toString seg.keplerid
        ++ " to KIC" ++ toString s.id, s) := by
  have h0 : ¬ s.clc.length = 0 := by simpa using hne
  simp [Lightcurve.add_data, h0, hid]

/-- C2 witness: a light curve with one sample and id 757450 rejects a
segment carrying id 757451. -/
theorem add_data_id_mismatch_rejected_witness :
    Lightcurve.add_data { id := 757450, clc := [some 1] }
      { keplerid := 757451, obsmode := "long cadence", quarter := 3,
        flux := [some 2], time := [0], flux_err := [some 1] }
      false 101 3 1 =
      .error ("Tried to add data from KIC757451 to KIC757450",
        { id := 757450, clc := [some 1] }) :=
  add_data_id_mismatch_rejected _ _ _ _ _ _ (by decide) (by decide)

/-- C7 counterexample: calling `detrend` with window 1 (order 3) on a
fresh light curve does fail, but the error state differs from the
pre-call state: the detrend flag, the recorded window and order, and the
snapshot have already been mutated when the filter raises. -/
theorem detrend_invalid_window_mutates_counterexample :
    Lightcurve.detrend { clc := [some 1, some 2] } 1 3
      = .error ("window_size is not valid for the polynomial order",
          { clc := [some 1, some 2], detrend_nbins := 1, detrend_order := 3,
            detrended := true, ulc := [some 1, some 2] }) ∧
    ({ clc := [some 1, some 2], detrend_nbins := 1, detrend_order := 3,
        detrended := true, ulc := [some 1, some 2] } : Lightcurve)
      ≠ { clc := [some 1, some 2] } := by
  constructor
  · rfl
  · decide

/-- C7 amended: smoothing-filter detrend with an invalid window/order
combination (window = 1, window not odd, or window ≤ order) fails and
never silently clamps the parameters, and the flux and fitted-curve
fields are unchanged on failure — but the detrend flag, the recorded
window/order and the snapshot `ulc` are mutated before the failure. -/
theorem detrend_invalid_window_fails_after_flag_mutation
    (s : Lightcurve) (nbins order : ℕ)
    (h : nbins = 1 ∨ nbins % 2 = 0 ∨ nbins ≤ order) :
    s.detrend nbins order =
      .error ("window_size is not valid for the polynomial order",
        { s with detrend_nbins := nbins, detrend_order := order,
                 detrended := true, ulc := s.clc }) := by
  unfold Lightcurve.detrend savitzky_golay
  simp [h]

/-- C7 witness: the amended theorem at window 4 (even), order 2. -/
theorem detrend_invalid_window_fails_after_flag_mutation_witness :
    Lightcurve.detrend { clc := [some 5] } 4 2
      = .error ("window_size is not valid for the polynomial order",
          { clc := [some 5], detrend_nbins := 4, detrend_order := 2,
            detrended := true, ulc := [some 5] }) :=
  detrend_invalid_window_fails_after_flag_mutation
    { clc := [some 5] } 4 2 (by decide)

/-- C8: both detrending strategies store the flux as it is immediately
before the baseline subtraction in the snapshot field `ulc`: after a
successful `detrend` and after `running_median`, `ulc` equals the input
state's flux. -/
theorem detrend_strategies_snapshot_preserved :
    (∀ (s : Lightcurve) (nbins order : ℕ) (s' : Lightcurve),
      s.detrend nbins order = .ok s' → s'.ulc = s.clc) ∧
    (∀ (s : Lightcurve) (dt : ℚ), (s.running_median dt).ulc = s.clc) := by
  constructor
  · intro s nbins order s' h
    obtain ⟨ffit, -, hs'⟩ := detrend_ok_elim h
    subst hs'
    rfl
  · intro s dt
    rfl

/-- C8 witness: a concrete successful Savitzky-Golay detrend (window 5,
order 2) and a concrete running-median pass, both snapshotting the
pre-subtraction flux `[some 1]`. -/
theorem detrend_strategies_snapshot_preserved_witness :
    Lightcurve.detrend { clc := [some 1] } 5 2 = .ok
      { clc := [some 1], ulc := [some 1], detrended := true,
        detrend_nbins := 5, detrend_order := 2, detrend_fit := [some 0] } ∧
    ({ clc := [some 1], ulc := [some 1], detrended := true,
        detrend_nbins := 5, detrend_order := 2,
        detrend_fit := [some 0] } : Lightcurve).ulc = [some 1] ∧
    (Lightcurve.running_median { clc := [some 1] } 2).ulc = [some 1] := by
  have h : Lightcurve.detrend { clc := [some 1] } 5 2 = .ok
      { clc := [some 1], ulc := [some 1], detrended := true,
        detrend_nbins := 5, detrend_order := 2, detrend_fit := [some 0] } := by
    norm_num [Lightcurve.detrend, savitzky_golay, osub]
  exact ⟨h, detrend_strategies_snapshot_preserved.1 _ 5 2 _ h,
    detrend_strategies_snapshot_preserved.2 { clc := [some 1] } 2⟩

/-- C9: after every successful append, the gap flag equals the gap check
applied to the buffer's (post-interpolation) flux content and the offset
scalar equals the median of that content; with no detrend requested the
final flux is that content minus the offset.  Both fields are plainly
recomputed on every append: the conclusion determines them from the
appended content alone, whatever they were before the call. -/
theorem add_data_gap_and_offset_recomputed (s : Lightcurve) (seg : Segment)
    (dtr : Bool) (nbins order maxgap : ℕ) (s' : Lightcurve)
    (h : s.add_data seg dtr nbins order maxgap = .ok s') :
    ∃ ic, interpFlux (s.clc ++ seg.flux) = .ok ic ∧
      s'.datagap = Lightcurve.gap_checker ic maxgap ∧
      s'.dc = npMedian ic ∧
      (dtr = false → s'.clc = ic.map (fun x => osub x (npMedian ic))) := by
  obtain ⟨ic, hic, hgap, hdc, hclc⟩ := add_data_ok_inv h
  refine ⟨ic, hic, ?_, hdc, hclc⟩
  rw [hgap, gap_checker_eq_false, gap_checker_eq_false]

/-- C9 witness: appending `[1, NaN, 3]` to an empty light curve yields
interpolated content `[1, 2, 3]`, gap flag `gap_checker [1,2,3] 1`, offset
`median [1,2,3] = 2` and flux `[-1, 0, 1]`. -/
theorem add_data_gap_and_offset_recomputed_witness :
    ∃ ic, interpFlux (({} : Lightcurve).clc ++ [some 1, none, some 3])
        = .ok ic ∧
      ({ id := 7, clc := [some (-1), some 0, some 1],
          cts := [0, 86400, 172800], cle := [some 1, some 1, some 1],
          dc := some 2, quarter := "2", cadence := "long" } :
        Lightcurve).datagap = Lightcurve.gap_checker ic 1 ∧
      ({ id := 7, clc := [some (-1), some 0, some 1],
          cts := [0, 86400, 172800], cle := [some 1, some 1, some 1],
          dc := some 2, quarter := "2", cadence := "long" } :
        Lightcurve).dc = npMedian ic ∧
      (false = false →
        ({ id := 7, clc := [some (-1), some 0, some 1],
            cts := [0, 86400, 172800], cle := [some 1, some 1, some 1],
            dc := some 2, quarter := "2", cadence := "long" } :
          Lightcurve).clc = ic.map (fun x => osub x (npMedian ic))) := by
  have h : Lightcurve.add_data {}
      { keplerid := 7, obsmode := "long cadence", quarter := 2,
        flux := [some 1, none, some 3], time := [0, 1, 2],
        flux_err := [some 1, some 1, some 1] } false 101 3 1 = .ok
      { id := 7, clc := [some (-1), some 0, some 1],
        cts := [0, 86400, 172800], cle := [some 1, some 1, some 1],
        dc := some 2, quarter := "2", cadence := "long" } := by
    have hI : interpFlux [some 1, none, some 3]
        = .ok [some 1, some 2, some 3] := by
      norm_num [interpFlux, vpAux, interpSegs, List.range_succ]
      exact fun hc => absurd hc (List.cons_ne_nil _ _)
    norm_num [Lightcurve.add_data, Lightcurve.gap_checker, diffs, nonzeroIdx,
      Lightcurve.interpolate, hI, Lightcurve.dcoffset, npMedian, sortQ,
      insertSorted, sortedMedian, osub]
    rfl
  exact add_data_gap_and_offset_recomputed _ _ _ _ _ _ _ h

/-- C4: for every flux array with at least one non-missing sample,
interpolation succeeds, leaves the length unchanged, leaves no missing
value, keeps every originally non-missing position exactly, and fills a
missing position lying between nearest non-missing neighbours `(j, a)` and
`(k, b)` with the linear interpolation
`a + (b - a)·(i - j)/(k - j)` over index space; in particular
`[1, NaN, 3]` becomes `[1, 2, 3]`. -/
theorem interpolate_fills_linearly :
    (∀ s : Lightcurve, s.clc.any (fun x => x.isSome) = true →
      ∃ ys, s.interpolate = .ok { s with clc := ys } ∧
        ys.length = s.clc.length ∧
        (∀ y ∈ ys, y.isSome = true) ∧
        (∀ (i : ℕ) (q : ℚ), s.clc[i]? = some (some q) → ys[i]? = some (some q))) ∧
    (∀ (pre : List (Option ℚ)) (a : ℚ) (mids : List (Option ℚ)) (b : ℚ)
        (post : List (Option ℚ)), (∀ y ∈ mids, y = none) →
      ∀ t : ℕ, t < mids.length →
      ∃ ys, interpFlux (pre ++ some a :: (mids ++ some b :: post)) = .ok ys ∧
        ys[pre.length + 1 + t]?
          = some (some (a + (b - a) * ((t : ℚ) + 1) / ((mids.length : ℚ) + 1)))) ∧
    interpFlux [some 1, none, some 3] = .ok [some 1, some 2, some 3] := by
  refine ⟨?_, ?_, ?_⟩
  · intro s hany
    have hvp : vpAux 0 s.clc ≠ [] := by
      rw [ne_eq, vpAux_eq_nil_iff]
      intro hall
      rcases List.any_eq_true.mp hany with ⟨x, hx, hxs⟩
      rw [hall x hx] at hxs
      simp at hxs
    refine ⟨(List.range s.clc.length).map (fun i =>
        match s.clc.get? i with
        | some (some q) => some q
        | _ => some (interpSegs (i : ℚ) (vpAux 0 s.clc))), ?_, ?_, ?_, ?_⟩
    · simp [Lightcurve.interpolate, interpFlux, hvp]
    · simp
    · intro y hy
      rw [List.mem_map] at hy
      obtain ⟨i, hi, hfy⟩ := hy
      rcases hget : s.clc.get? i with - | (- | q) <;>
        rw [hget] at hfy <;> rw [← hfy] <;> rfl
    · intro i q hq
      have hq' : s.clc.get? i = some (some q) := by
        rw [List.get?_eq_getElem?]
        exact hq
      have hilen : i < s.clc.length := by
        rcases List.getElem?_eq_some_iff.mp hq with ⟨h, -⟩
        exact h
      rw [List.getElem?_map, List.getElem?_range hilen]
      simp only [Option.map_some']
      rw [hq']
  · intro pre a mids b post hmids t ht
    have hmid : vpAux (pre.length + 1) mids = [] :=
      (vpAux_eq_nil_iff _ _).mpr hmids
    have hsa : vpAux pre.length (some a :: (mids ++ some b :: post))
        = ((pre.length : ℚ), a) ::
          vpAux (pre.length + 1) (mids ++ some b :: post) := rfl
    have hsb : vpAux (pre.length + 1 + mids.length) (some b :: post)
        = (((pre.length + 1 + mids.length : ℕ) : ℚ), b) ::
          vpAux (pre.length + 1 + mids.length + 1) post := rfl
    have hdecomp : vpAux 0 (pre ++ some a :: (mids ++ some b :: post))
        = vpAux 0 pre ++ ((pre.length : ℚ), a) ::
          (((pre.length + 1 + mids.length : ℕ) : ℚ), b) ::
          vpAux (pre.length + 1 + mids.length + 1) post := by
      rw [vpAux_append, Nat.zero_add, hsa, vpAux_append, hmid,
        List.nil_append, hsb]
    have hne : vpAux 0 (pre ++ some a :: (mids ++ some b :: post)) ≠ [] := by
      rw [hdecomp]
      simp
    have hok : interpFlux (pre ++ some a :: (mids ++ some b :: post))
        = .ok ((List.range (pre ++ some a :: (mids ++ some b :: post)).length).map
          (fun i => match (pre ++ some a :: (mids ++ some b :: post)).get? i with
            | some (some q) => some q
            | _ => some (interpSegs (i : ℚ)
                (vpAux 0 (pre ++ some a :: (mids ++ some b :: post)))))) := by
      unfold interpFlux
      rw [if_neg hne]
    refine ⟨_, hok, ?_⟩
    have hilen : pre.length + 1 + t
        < (pre ++ some a :: (mids ++ some b :: post)).length := by
      simp
      omega
    rw [List.getElem?_map, List.getElem?_range hilen]
    simp only [Option.map_some']
    have hmid_t : mids[t]? = some none := by
      rw [List.getElem?_eq_getElem ht]
      exact congrArg some (hmids _ (List.getElem_mem ht))
    have hxs_i : (pre ++ some a :: (mids ++ some b :: post)).get?
        (pre.length + 1 + t) = some none := by
      rw [List.get?_eq_getElem?,
        List.getElem?_append_right (by omega : pre.length ≤ pre.length + 1 + t)]
      have e : pre.length + 1 + t - pre.length = t + 1 := by omega
      rw [e, List.getElem?_cons_succ, List.getElem?_append_left ht, hmid_t]
    rw [hxs_i]
    have hlin : interpSegs ((pre.length + 1 + t : ℕ) : ℚ)
        (vpAux 0 (pre ++ some a :: (mids ++ some b :: post)))
        = a + (b - a) * ((t : ℚ) + 1) / ((mids.length : ℚ) + 1) := by
      rw [hdecomp, interpSegs_adjacent]
      · have e1 : ((pre.length + 1 + t : ℕ) : ℚ) - (pre.length : ℚ)
            = (t : ℚ) + 1 := by
          push_cast
          ring
        have e2 : (((pre.length + 1 + mids.length : ℕ)) : ℚ)
            - (pre.length : ℚ) = (mids.length : ℚ) + 1 := by
          push_cast
          ring
        rw [e1, e2]
      · intro p hp
        obtain ⟨m, hm1, -, hm3⟩ := mem_vpAux_coord hp
        rw [hm1]
        exact_mod_cast Nat.cast_lt.mpr (by omega : m < pre.length + 1 + t)
      · exact_mod_cast Nat.cast_lt.mpr (by omega : pre.length < pre.length + 1 + t)
      · exact_mod_cast Nat.cast_lt.mpr
          (by omega : pre.length + 1 + t < pre.length + 1 + mids.length)
    rw [hlin]
  · norm_num [interpFlux, vpAux, interpSegs, List.range_succ]
    exact fun hc => absurd hc (List.cons_ne_nil _ _)

/-- C4 witness: the linear-fill clause applied at `pre = []`, `a = 1`,
`mids = [NaN]`, `b = 3`, `t = 0`: the midpoint receives
`1 + 2·1/2 = 2`. -/
theorem interpolate_fills_linearly_witness :
    ∃ ys, interpFlux (([] : List (Option ℚ))
        ++ some 1 :: ([none] ++ some 3 :: [])) = .ok ys ∧
      ys[([] : List (Option ℚ)).length + 1 + 0]?
        = some (some (1 + (3 - 1) * (((0 : ℕ) : ℚ) + 1)
            / ((([none] : List (Option ℚ)).length : ℚ) + 1))) :=
  interpolate_fills_linearly.2.1 [] 1 [none] 3 [] (by decide) 0 (by decide)

/-- C6: the running-median baseline at sample `i` is the median of
exactly the flux values whose timestamps lie within ±dt/2 of sample `i`'s
timestamp (membership by timestamp distance only), the result is flux
minus that baseline elementwise, and a sample with a timestamp identical
to sample `i`'s always belongs to sample `i`'s window; on the unevenly
sampled curve `cts = [0, 0, 50]` the fit is `[3, 3, 100]`, grouping the
two index-separated samples that share timestamp 0. -/
theorem running_median_time_windowed (s : Lightcurve) (dt : ℚ)
    (hlen : s.cts.length = s.clc.length) (hdt : 0 < dt) :
    (∀ i : ℕ, i < s.clc.length →
      (s.running_median dt).running_median_fit[i]?
        = some (npMedian (specTimeWindow s dt i))) ∧
    (∀ i : ℕ, i < s.clc.length → (s.running_median dt).clc[i]?
        = some (osub (s.clc.getD i none)
            ((s.running_median dt).running_median_fit.getD i none))) ∧
    (∀ i j : ℕ, i < s.cts.length → j < s.cts.length →
      s.cts.getD i 0 = s.cts.getD j 0 →
      s.clc.getD j none ∈ Lightcurve.windowVals s dt i) ∧
    (Lightcurve.running_median
        { clc := [some 1, some 5, some 100], cts := [0, 0, 50] } 1
      ).running_median_fit = [some 3, some 3, some 100] := by
  refine ⟨?_, ?_, ?_, ?_⟩
  · intro i hi
    show ((List.range s.clc.length).map
        (fun k => npMedian (Lightcurve.windowVals s dt k)))[i]? = _
    rw [List.getElem?_map, List.getElem?_range hi, Option.map_some',
      windowVals_eq_specTimeWindow]
  · intro i hi
    have hfit : (s.running_median dt).running_median_fit
        = (List.range s.clc.length).map
          (fun k => npMedian (Lightcurve.windowVals s dt k)) := rfl
    have hclc2 : (s.running_median dt).clc
        = s.clc.zipWith osub ((List.range s.clc.length).map
          (fun k => npMedian (Lightcurve.windowVals s dt k))) := rfl
    have hlenfit : i < ((List.range s.clc.length).map
        (fun k => npMedian (Lightcurve.windowVals s dt k))).length := by
      simp [hi]
    rw [hclc2, hfit]
    refine List.getElem?_zipWith_eq_some.mpr
      ⟨s.clc[i], ((List.range s.clc.length).map
        (fun k => npMedian (Lightcurve.windowVals s dt k)))[i],
        List.getElem?_eq_getElem hi, List.getElem?_eq_getElem hlenfit, ?_⟩
    have e1 : s.clc.getD i none = s.clc[i] := by
      rw [List.getD_eq_getElem?_getD, List.getElem?_eq_getElem hi]
      rfl
    have e2 : ((List.range s.clc.length).map
        (fun k => npMedian (Lightcurve.windowVals s dt k))).getD i none
        = ((List.range s.clc.length).map
          (fun k => npMedian (Lightcurve.windowVals s dt k)))[i] := by
      rw [List.getD_eq_getElem?_getD, List.getElem?_eq_getElem hlenfit]
      rfl
    rw [e1, e2]
  · intro i j hi hj heq
    have hjc : j < s.clc.length := hlen ▸ hj
    have hcts : s.cts.getD j 0 = s.cts[j] := by
      rw [List.getD_eq_getElem?_getD, List.getElem?_eq_getElem hj]
      rfl
    have hclc : s.clc.getD j none = s.clc[j] := by
      rw [List.getD_eq_getElem?_getD, List.getElem?_eq_getElem hjc]
      rfl
    have hpair : (s.cts[j], s.clc[j]) ∈ s.cts.zip s.clc := by
      apply List.getElem?_mem (n := j)
      rw [List.getElem?_zip_eq_some]
      exact ⟨List.getElem?_eq_getElem hj, List.getElem?_eq_getElem hjc⟩
    have hpred : (decide (s.cts[j] < s.cts.getD i 0 + dt / 2)
        && decide (s.cts.getD i 0 - dt / 2 < s.cts[j])) = true := by
      have hdt2 : 0 < dt / 2 := half_pos hdt
      have hje : s.cts[j] = s.cts.getD i 0 := by
        rw [← hcts, heq]
      rw [hje]
      simp only [Bool.and_eq_true, decide_eq_true_eq]
      constructor
      · linarith
      · linarith
    rw [hclc]
    show s.clc[j] ∈ Lightcurve.windowVals s dt i
    simp only [Lightcurve.windowVals]
    refine List.mem_map_of_mem (fun p => p.2)
      (List.mem_filter.mpr ⟨hpair, ?_⟩)
    exact hpred
  · norm_num [Lightcurve.running_median, Lightcurve.windowVals, npMedian,
      sortQ, insertSorted, sortedMedian, List.range_succ, List.zip,
      List.zipWith, List.filter]
    all_goals exact fun hc => absurd hc (List.cons_ne_nil _ _)

/-- C6 witness: the theorem applied to the concrete light curve with
timestamps `[0, 0, 50]` and `dt = 1`. -/
theorem running_median_time_windowed_witness :
    (Lightcurve.running_median
        { clc := [some 1, some 5, some 100], cts := [0, 0, 50] } 1
      ).running_median_fit = [some 3, some 3, some 100] :=
  (running_median_time_windowed
    { clc := [some 1, some 5, some 100], cts := [0, 0, 50] } 1
    (by decide) (by norm_num)).2.2.2
